import Mathlib

/-!
Verification of the `backups.rs` pipeline orchestrator.

This file shallowly embeds the relevant parts of the repository's source:

* `src/cli.rs`        — the run flags (`Cli`).
* `src/config.rs`     — the resolved configuration (`Config` and its parts).
* `src/runner.rs`     — `prefix` (here `pfx`, since `prefix` is a Lean
  keyword) and `rustic_base`.
* `src/commands/run.rs` — the argument builders and the pipeline driver
  `run`, including its early-abort behaviour.
* `src/ui.rs`         — `run_captured`, `run_stage`, `skipped_stage` and the
  `StageOutcome` data type.
* `src/mount.rs`      — `nfs_source`, `effective_user`, `is_mounted`,
  `try_mount` and `mount_share`.

External effects (process spawning, the filesystem, environment variables)
are modelled by explicit oracle records (`Exec`, `MountEnv`, `World`) passed
to the embedded functions; each oracle field corresponds to exactly one
effectful call-site in the Rust code.
-/

namespace Backups

/-! ## Data model (src/cli.rs, src/config.rs) -/

/-- The run flags from `src/cli.rs` (`Cli`).  Only the four booleans that
influence the pipeline are modelled; `config`, `print_config` and the
subcommand select which code path runs and are not part of the pipeline
itself.  The source's `sudo` field is named `sudo_flag` here because `sudo`
is a reserved token once Mathlib is imported. -/
structure Cli where
  no_mount : Bool
  no_prune : Bool
  no_check : Bool
  sudo_flag : Bool
  deriving DecidableEq

/-- `RepoConfig` from `src/config.rs`. -/
structure RepoConfig where
  path : String
  password : String
  deriving DecidableEq

/-- `BackupConfig` from `src/config.rs`.  `compression : u8` is modelled as
`Nat`; the program only ever formats it with `to_string`, so no overflow
arithmetic occurs. -/
structure BackupConfig where
  sources : List String
  compression : Nat
  globs : List String
  exclude_if_present : String
  deriving DecidableEq

/-- `RetentionConfig` from `src/config.rs` (`u32` counts as `Nat`, only ever
formatted). -/
structure RetentionConfig where
  daily : Nat
  weekly : Nat
  monthly : Nat
  deriving DecidableEq

/-- `MountConfig` from `src/config.rs`. -/
structure MountConfig where
  share : Option String
  user : Option String
  deriving DecidableEq

/-- `Config` from `src/config.rs`. -/
structure Config where
  repo : RepoConfig
  backup : BackupConfig
  retention : RetentionConfig
  mount : MountConfig
  deriving DecidableEq

/-! ## Stage outcomes (src/ui.rs) -/

/-- `StageOutcome` from `src/ui.rs`. -/
structure StageOutcome where
  label : String
  success : Bool
  stdout : String
  stderr : String
  error : Option String
  deriving DecidableEq

/-- `StageOutcome::failed` from `src/ui.rs`. -/
def StageOutcome.failed (o : StageOutcome) : Bool :=
  !o.success

/-! ## Argument builders (src/runner.rs, src/commands/run.rs) -/

/-- `prefix` from `src/runner.rs` (renamed: `prefix` is a Lean keyword).
Returns `["doas"]` when `--sudo` is set, otherwise an empty list. -/
def pfx (cli : Cli) : List String :=
  if cli.sudo_flag then ["doas"] else []

/-- `rustic_base` from `src/runner.rs`:
`[doas] rustic -r <repo.path> --password <repo.password>`. -/
def rustic_base (cli : Cli) (cfg : Config) : List String :=
  pfx cli ++ ["rustic", "-r", cfg.repo.path, "--password", cfg.repo.password]

/-- `build_mkdir_args` from `src/commands/run.rs`. -/
def build_mkdir_args (cli : Cli) (cfg : Config) : List String :=
  pfx cli ++ ["mkdir", "-p", cfg.repo.path]

/-- `build_init_args` from `src/commands/run.rs`. -/
def build_init_args (cli : Cli) (cfg : Config) : List String :=
  rustic_base cli cfg ++ ["init"]

/-- `build_check_args` from `src/commands/run.rs`. -/
def build_check_args (cli : Cli) (cfg : Config) : List String :=
  rustic_base cli cfg ++ ["check"]

/-- `build_backup_args` from `src/commands/run.rs`: base + `backup` + the
compression and exclusion flags, one `--glob=<g>` per configured glob (in
order), then the sources (or `"."` when the source list is empty). -/
def build_backup_args (cli : Cli) (cfg : Config) : List String :=
  rustic_base cli cfg
    ++ ["backup", "--set-compression", toString cfg.backup.compression,
        "--exclude-if-present", cfg.backup.exclude_if_present]
    ++ cfg.backup.globs.map (fun glob => "--glob=" ++ glob)
    ++ (if cfg.backup.sources.isEmpty then ["."] else cfg.backup.sources)

/-- `build_forget_args` from `src/commands/run.rs`. -/
def build_forget_args (cli : Cli) (cfg : Config) : List String :=
  rustic_base cli cfg
    ++ ["forget", "--prune",
        "--keep-daily", toString cfg.retention.daily,
        "--keep-weekly", toString cfg.retention.weekly,
        "--keep-monthly", toString cfg.retention.monthly]

/-- `build_compact_args` from `src/commands/run.rs`. -/
def build_compact_args (cli : Cli) (cfg : Config) : List String :=
  rustic_base cli cfg ++ ["prune"]

/-- `Cli` with the `sudo` flag replaced (used to compare elevation on/off). -/
def withSudo (cli : Cli) (b : Bool) : Cli :=
  ⟨cli.no_mount, cli.no_prune, cli.no_check, b⟩

/-! ## Process executor (src/ui.rs) -/

/-- Oracle for the `std::process::Command::output()` call in `run_captured`:
given the program name and its arguments, `none` models a spawn failure
(binary not found, permission denied) and `some (exit_success, stdout,
stderr)` a child process that ran to completion. -/
def Exec : Type :=
  String → List String → Option (Bool × String × String)

/-- Rust `args.join(" ")`. -/
def joinSpace (args : List String) : String :=
  String.intercalate " " args

/-- `run_captured` from `src/ui.rs`: fail fast on an empty vector, otherwise
spawn `args[0]` with the rest as arguments.  A spawn failure is wrapped in
the `failed to spawn: <joined args>` context; a completed child is returned
as `(exit_success, stdout, stderr)` without interpreting the exit status. -/
def run_captured (exec : Exec) (args : List String) :
    Except String (Bool × String × String) :=
  match args with
  | [] => Except.error "cannot run an empty command"
  | prog :: rest =>
    match exec prog rest with
    | none => Except.error ("failed to spawn: " ++ joinSpace args)
    | some r => Except.ok r

/-- `run_stage` from `src/ui.rs`.  The spinner is pure terminal decoration
and has no bearing on the returned outcome. -/
def run_stage (exec : Exec) (label : String) (args : List String) : StageOutcome :=
  match run_captured exec args with
  | Except.ok (true, out, err) => ⟨label, true, out, err, none⟩
  | Except.ok (false, out, err) =>
    ⟨label, false, out, err, some ("command exited non-zero: " ++ joinSpace args)⟩
  | Except.error e => ⟨label, false, "", "", some e⟩

/-- `skipped_stage` from `src/ui.rs`: a synthetic success outcome. -/
def skipped_stage (label : String) : StageOutcome :=
  ⟨label, true, "", "", none⟩

/-! ## Mounting (src/mount.rs) -/

/-- `nfs_source` from `src/mount.rs`. -/
def nfs_source (name : String) : Option String :=
  if name = "new-documents" then some "documents.lan:/documents"
  else if name = "new-backups" then some "nas.lan:/mnt/vol2/backups"
  else if ["isos", "pictures", "movies", "videos", "backups", "owncloud",
           "lan-share", "repos", "documents"].contains name then
    some ("nas.lan:/mnt/vol1/" ++ name)
  else none

/-- Oracle for the effectful calls in `src/mount.rs`: the `$USER` and
`$LOGNAME` environment variables, the captured stdout of the `doas mount`
probe (`none` = spawn failure), the result of
`std::fs::create_dir_all(mountpoint)`, and the exit status of the
`doas mount -t nfs …` call (`none` = spawn failure). -/
structure MountEnv where
  envUser : Option String
  envLogname : Option String
  probe : Option String
  mkdirOk : Bool
  mountExit : Option Bool

/-- `effective_user` from `src/mount.rs`: config user, else `$USER`, else
`$LOGNAME`, else `"user"`. -/
def effective_user (cfg : MountConfig) (env : MountEnv) : String :=
  cfg.user.getD (env.envUser.getD (env.envLogname.getD "user"))

/-- Bool test that `pat` is a leading segment of the second list (used to
model Rust `str::contains`, character by character). -/
def leadsWith : List Char → List Char → Bool
  | [], _ => true
  | _ :: _, [] => false
  | p :: ps, c :: cs => p == c && leadsWith ps cs

/-- Rust `str::contains(pat)` on character lists: some tail of the text
starts with `pat`. -/
def containsSeq (pat : List Char) : List Char → Bool
  | [] => leadsWith pat []
  | c :: cs => leadsWith pat (c :: cs) || containsSeq pat cs

/-- Split a character list at newline characters (every piece, including a
trailing empty one). -/
def splitNl : List Char → List (List Char)
  | [] => [[]]
  | c :: cs =>
    if c == '\n' then [] :: splitNl cs
    else
      match splitNl cs with
      | [] => [[c]]
      | l :: ls => (c :: l) :: ls

/-- Rust `str::lines()`: newline-separated pieces, with a final empty piece
(from a trailing newline or an empty string) dropped.  `\r\n` endings are
not modelled; no claim depends on them. -/
def rustLines (s : List Char) : List (List Char) :=
  match splitNl s with
  | [] => []
  | ls => if ls.getLast? = some [] then ls.dropLast else ls

/-- `is_mounted` from `src/mount.rs`: run the `doas mount` probe and report
whether at least one stdout line contains the share name. -/
def is_mounted (env : MountEnv) (share : String) : Except String Bool :=
  match env.probe with
  | none => Except.error "failed to run doas mount"
  | some out =>
    let count := ((rustLines out.data).filter fun l => containsSeq share.data l).length
    Except.ok (decide (1 ≤ count))

/-- `try_mount` from `src/mount.rs`.  The first component is the Rust
function's `Result<String>` (error strings are the displayed `anyhow`
context messages); the second is the argument vector of every external
command it spawned, in order — the `doas mount` probe inside `is_mounted`
and the `doas mount -t nfs …` call.  `std::fs::create_dir_all` is a library
call, not a spawned command, so it does not appear in the trace. -/
def try_mount (env : MountEnv) (cfg : MountConfig) :
    Except String String × List (List String) :=
  match cfg.share with
  | none =>
    (Except.error "[mount].share is not set — add `share = \"new-backups\"` to backup.toml",
     [])
  | some share =>
    let user := effective_user cfg env
    let mountpoint := "/home/" ++ user ++ "/nfs/" ++ share
    let probeCmd : List String := ["doas", "mount"]
    match is_mounted env share with
    | Except.error e => (Except.error e, [probeCmd])
    | Except.ok true =>
      (Except.ok (share ++ " already mounted at " ++ mountpoint), [probeCmd])
    | Except.ok false =>
      if !env.mkdirOk then
        (Except.error ("mkdir -p " ++ mountpoint), [probeCmd])
      else
        match nfs_source share with
        | none =>
          (Except.error ("unknown share name: \x27" ++ share ++ "\x27"), [probeCmd])
        | some source =>
          let mountCmd : List String := ["doas", "mount", "-t", "nfs", source, mountpoint]
          match env.mountExit with
          | none => (Except.error "failed to spawn doas mount", [probeCmd, mountCmd])
          | some true =>
            (Except.ok ("mounted " ++ source ++ " → " ++ mountpoint),
             [probeCmd, mountCmd])
          | some false =>
            (Except.error ("doas mount -t nfs " ++ source ++ " " ++ mountpoint
                ++ " exited non-zero"),
             [probeCmd, mountCmd])

/-- `mount_share` from `src/mount.rs`. -/
def mount_share (env : MountEnv) (cfg : MountConfig) : StageOutcome :=
  match (try_mount env cfg).1 with
  | Except.ok msg => ⟨"Mount", true, msg, "", none⟩
  | Except.error e => ⟨"Mount", false, "", "", some e⟩

/-! ## The pipeline (src/commands/run.rs, src/main.rs) -/

/-- The ambient state one pipeline run interacts with: the mount oracle, the
result of the single `Path::new(&cfg.repo.path).exists()` probe, and the
process-spawning oracle used by every `run_stage` call. -/
structure World where
  mountEnv : MountEnv
  repoExists : Bool
  exec : Exec

/-- The observable result of `commands::run::run`: the recorded outcome
list, the list the final `print_summary` call received, and whether the
function returned `Ok`. -/
structure RunResult where
  outcomes : List StageOutcome
  summaryPrintedOver : List StageOutcome
  ok : Bool
  deriving DecidableEq

/-- One print/record/abort step of `commands::run::run`: the outcome is
printed and appended; on failure the run prints the summary over the
partial list and aborts (`anyhow::bail!`). -/
def abortStep (os : List StageOutcome) (o : StageOutcome) :
    Except RunResult (List StageOutcome) :=
  let os2 := os ++ [o]
  if o.failed then Except.error ⟨os2, os2, false⟩ else Except.ok os2

/-- Stage 1 of `commands::run::run`: mount, or a synthetic skip when
`--no-mount` is set or no share is configured. -/
def mountOutcome (w : World) (cli : Cli) (cfg : Config) : StageOutcome :=
  if !cli.no_mount && cfg.mount.share.isSome then mount_share w.mountEnv cfg.mount
  else skipped_stage "Mount"

/-- Stage 2 of `commands::run::run`: the two init sub-stages, run only when
the repository path does not yet exist. -/
def initSteps (w : World) (cli : Cli) (cfg : Config) (os : List StageOutcome) :
    Except RunResult (List StageOutcome) :=
  if !w.repoExists then
    (abortStep os (run_stage w.exec "Init (mkdir)" (build_mkdir_args cli cfg))).bind fun os2 =>
      abortStep os2 (run_stage w.exec "Init (repo)" (build_init_args cli cfg))
  else Except.ok os

/-- Stage 3 of `commands::run::run`: check, unless `--no-check`. -/
def checkStep (w : World) (cli : Cli) (cfg : Config) (os : List StageOutcome) :
    Except RunResult (List StageOutcome) :=
  if !cli.no_check then
    abortStep os (run_stage w.exec "Check" (build_check_args cli cfg))
  else Except.ok os

/-- Stages 5 and 6 of `commands::run::run`: forget then compact, unless
`--no-prune`. -/
def pruneSteps (w : World) (cli : Cli) (cfg : Config) (os : List StageOutcome) :
    Except RunResult (List StageOutcome) :=
  if !cli.no_prune then
    (abortStep os (run_stage w.exec "Forget" (build_forget_args cli cfg))).bind fun os2 =>
      abortStep os2 (run_stage w.exec "Compact" (build_compact_args cli cfg))
  else Except.ok os

/-- `commands::run::run` from `src/commands/run.rs`, stage by stage in
source order.  `Except.error` carries the final state of an aborted run,
`Except.ok` the outcome list of a completed one. -/
def runE (w : World) (cli : Cli) (cfg : Config) :
    Except RunResult (List StageOutcome) :=
  (abortStep [] (mountOutcome w cli cfg)).bind fun os1 =>
    (initSteps w cli cfg os1).bind fun os2 =>
      (checkStep w cli cfg os2).bind fun os3 =>
        (abortStep os3 (run_stage w.exec "Backup" (build_backup_args cli cfg))).bind fun os4 =>
          pruneSteps w cli cfg os4

/-- `commands::run::run` collapsed to its observable result.  On the `Ok`
path the source also prints the summary over the full outcome list. -/
def run (w : World) (cli : Cli) (cfg : Config) : RunResult :=
  match runE w cli cfg with
  | Except.ok os => ⟨os, os, true⟩
  | Except.error r => r

/-- `main` from `src/main.rs`, restricted to the default-pipeline path: an
`anyhow::Result` main exits with code 0 on `Ok` and a non-zero code (1) on
`Err`. -/
def main_exit_code (w : World) (cli : Cli) (cfg : Config) : Nat :=
  if (run w cli cfg).ok then 0 else 1

/-! ## Helper lemmas about the pipeline -/

/-- Every outcome in the list succeeded. -/
def allOk (os : List StageOutcome) : Prop :=
  ∀ o ∈ os, o.success = true

/-- The final state of an aborted run: the outcome list ends at its first
failure, the summary was printed over exactly that partial list, and the
run signalled failure. -/
def FinalBad (r : RunResult) : Prop :=
  (∃ pre last, r.outcomes = pre ++ [last] ∧ allOk pre ∧ last.success = false) ∧
    r.summaryPrintedOver = r.outcomes ∧ r.ok = false

/-- Invariant transport along the pipeline states: `A` holds of every
still-running outcome list, `B` of every aborted final state. -/
def EOk (A : List StageOutcome → Prop) (B : RunResult → Prop)
    (x : Except RunResult (List StageOutcome)) : Prop :=
  (∀ os, x = Except.ok os → A os) ∧ (∀ r, x = Except.error r → B r)

theorem eok_pure {A : List StageOutcome → Prop} {B : RunResult → Prop}
    {os : List StageOutcome} (h : A os) : EOk A B (Except.ok os) := by
  constructor
  · intro os2 h2
    injection h2 with h3
    exact h3 ▸ h
  · intro r h2
    exact Except.noConfusion h2

theorem eok_bind {A : List StageOutcome → Prop} {B : RunResult → Prop}
    {x : Except RunResult (List StageOutcome)}
    {f : List StageOutcome → Except RunResult (List StageOutcome)}
    (hx : EOk A B x) (hf : ∀ os, A os → EOk A B (f os)) :
    EOk A B (x.bind f) := by
  cases x with
  | ok os => exact hf os (hx.1 os rfl)
  | error r =>
    constructor
    · intro os h2
      exact Except.noConfusion h2
    · intro r2 h2
      injection h2 with h3
      exact h3 ▸ hx.2 r rfl

theorem mem_append_one {P : StageOutcome → Prop} {os : List StageOutcome}
    {o : StageOutcome} (h : ∀ o2 ∈ os, P o2) (ho : P o) :
    ∀ o2 ∈ os ++ [o], P o2 := by
  intro o2 h2
  rcases List.mem_append.mp h2 with h3 | h3
  · exact h o2 h3
  · have h4 := List.mem_singleton.mp h3
    exact h4 ▸ ho

theorem allOk_nil : allOk [] := by
  intro o h
  exact absurd h (List.not_mem_nil o)

theorem eok_abortStep {os : List StageOutcome} (o : StageOutcome) (h : allOk os) :
    EOk allOk FinalBad (abortStep os o) := by
  unfold abortStep
  split
  · next hfail =>
    constructor
    · intro os2 h2
      exact Except.noConfusion h2
    · intro r h2
      injection h2 with h3
      subst h3
      refine ⟨⟨os, o, rfl, h, ?_⟩, rfl, rfl⟩
      simpa [StageOutcome.failed] using hfail
  · next hok =>
    apply eok_pure
    apply mem_append_one h
    simpa [StageOutcome.failed] using hok

theorem eok_initSteps (w : World) (cli : Cli) (cfg : Config)
    {os : List StageOutcome} (h : allOk os) :
    EOk allOk FinalBad (initSteps w cli cfg os) := by
  unfold initSteps
  split
  · exact eok_bind (eok_abortStep _ h) (fun os2 h2 => eok_abortStep _ h2)
  · exact eok_pure h

theorem eok_checkStep (w : World) (cli : Cli) (cfg : Config)
    {os : List StageOutcome} (h : allOk os) :
    EOk allOk FinalBad (checkStep w cli cfg os) := by
  unfold checkStep
  split
  · exact eok_abortStep _ h
  · exact eok_pure h

theorem eok_pruneSteps (w : World) (cli : Cli) (cfg : Config)
    {os : List StageOutcome} (h : allOk os) :
    EOk allOk FinalBad (pruneSteps w cli cfg os) := by
  unfold pruneSteps
  split
  · exact eok_bind (eok_abortStep _ h) (fun os2 h2 => eok_abortStep _ h2)
  · exact eok_pure h

theorem eok_runE (w : World) (cli : Cli) (cfg : Config) :
    EOk allOk FinalBad (runE w cli cfg) := by
  unfold runE
  refine eok_bind (eok_abortStep _ allOk_nil) (fun os1 h1 => ?_)
  refine eok_bind (eok_initSteps w cli cfg h1) (fun os2 h2 => ?_)
  refine eok_bind (eok_checkStep w cli cfg h2) (fun os3 h3 => ?_)
  exact eok_bind (eok_abortStep _ h3) (fun os4 h4 => eok_pruneSteps w cli cfg h4)

/-- Every run either completed with all outcomes successful, or aborted in a
`FinalBad` state.  In both cases the summary was printed over exactly the
returned outcome list. -/
theorem run_spec (w : World) (cli : Cli) (cfg : Config) :
    ((run w cli cfg).ok = true ∧ allOk (run w cli cfg).outcomes ∧
      (run w cli cfg).summaryPrintedOver = (run w cli cfg).outcomes) ∨
    FinalBad (run w cli cfg) := by
  have h := eok_runE w cli cfg
  cases hx : runE w cli cfg with
  | ok os =>
    simp only [run, hx]
    exact Or.inl ⟨trivial, h.1 os hx, trivial⟩
  | error r =>
    simp only [run, hx]
    exact Or.inr (h.2 r hx)

/-! ## Sample inputs used by the witnesses -/

/-- All flags off. -/
def cliOff : Cli := ⟨false, false, false, false⟩

/-- `--no-mount --no-prune --no-check`. -/
def cliSkipAll : Cli := ⟨true, true, true, false⟩

/-- Executor oracle: every command exits zero with no output. -/
def execAllOk : Exec := fun _ _ => some (true, "", "")

/-- Executor oracle: every command runs but exits non-zero. -/
def execNonZero : Exec := fun _ _ => some (false, "out", "err")

/-- Executor oracle: every spawn fails. -/
def execSpawnFail : Exec := fun _ _ => none

/-- A mount environment where nothing is mounted yet and everything works. -/
def envOk : MountEnv := ⟨some "alice", none, some "", true, some true⟩

/-- A mount configuration with a known share. -/
def mcfgSample : MountConfig := ⟨some "new-backups", some "alice"⟩

/-- The configuration from the repository's own unit tests. -/
def cfgSample : Config :=
  ⟨⟨"/tmp/repo", "pw"⟩, ⟨["/home/alice/project"], 3, ["!**/.git", "!tmp/"], "ignore"⟩,
   ⟨2, 1, 1⟩, ⟨some "new-backups", none⟩⟩

/-- Like `cfgSample` but with `"."` as the (non-empty) configured source list. -/
def cfgDotSource : Config :=
  ⟨⟨"/tmp/repo", "pw"⟩, ⟨["."], 3, ["!**/.git"], "ignore"⟩, ⟨2, 1, 1⟩,
   ⟨some "new-backups", none⟩⟩

/-- Existing repository, every command succeeds. -/
def worldAllOk : World := ⟨envOk, true, execAllOk⟩

/-- Existing repository, every command exits non-zero. -/
def worldFailBackup : World := ⟨envOk, true, execNonZero⟩

/-! ## The claims -/

/-- C1: if any stage of a pipeline run records a failed outcome, the
recorded outcome list ends exactly at the first failing stage (every
earlier outcome succeeded and the failing one is last), the final summary
is still printed over that partial list, and the run returns failure to
its caller. -/
theorem c1_first_failure_truncates (w : World) (cli : Cli) (cfg : Config)
    (h : ∃ o ∈ (run w cli cfg).outcomes, o.failed = true) :
    (∃ pre last, (run w cli cfg).outcomes = pre ++ [last] ∧
        (∀ o ∈ pre, o.success = true) ∧ last.success = false) ∧
      (run w cli cfg).summaryPrintedOver = (run w cli cfg).outcomes ∧
      (run w cli cfg).ok = false := by
  rcases run_spec w cli cfg with ⟨_, hall, _⟩ | hbad
  · exfalso
    rcases h with ⟨o, hmem, hfail⟩
    have hs := hall o hmem
    simp [StageOutcome.failed, hs] at hfail
  · exact ⟨hbad.1, hbad.2⟩

/-- Witness for C1: with every command exiting non-zero, the Backup stage
fails and the recorded list stops there. -/
theorem c1_witness :
    (∃ o ∈ (run worldFailBackup cliSkipAll cfgSample).outcomes, o.failed = true) ∧
    ((∃ pre last, (run worldFailBackup cliSkipAll cfgSample).outcomes = pre ++ [last] ∧
        (∀ o ∈ pre, o.success = true) ∧ last.success = false) ∧
      (run worldFailBackup cliSkipAll cfgSample).summaryPrintedOver =
        (run worldFailBackup cliSkipAll cfgSample).outcomes ∧
      (run worldFailBackup cliSkipAll cfgSample).ok = false) :=
  ⟨by decide, c1_first_failure_truncates worldFailBackup cliSkipAll cfgSample (by decide)⟩

/-- C2: the process exit code of a pipeline run is zero iff every recorded
stage outcome has `success = true`. -/
theorem c2_exit_code_iff_all_success (w : World) (cli : Cli) (cfg : Config) :
    main_exit_code w cli cfg = 0 ↔
      ∀ o ∈ (run w cli cfg).outcomes, o.success = true := by
  unfold main_exit_code
  constructor
  · intro h0
    rcases run_spec w cli cfg with ⟨_, hall, _⟩ | hbad
    · exact hall
    · rw [hbad.2.2] at h0
      simp at h0
  · intro hall
    rcases run_spec w cli cfg with ⟨hok, _, _⟩ | hbad
    · simp [hok]
    · exfalso
      rcases hbad.1 with ⟨pre, last, hco, _, hlf⟩
      have hmem : last ∈ (run w cli cfg).outcomes := by
        rw [hco]
        exact List.mem_append_right _ (List.mem_singleton_self _)
      have hs := hall last hmem
      rw [hs] at hlf
      exact Bool.noConfusion hlf

/-- Witness for C2 at a fully-successful concrete run. -/
theorem c2_witness : main_exit_code worldAllOk cliSkipAll cfgSample = 0 :=
  (c2_exit_code_iff_all_success worldAllOk cliSkipAll cfgSample).mpr (by decide)

/-- C3: `run_stage` maps the executor result three ways — executor error to
a failed outcome with empty output carrying the executor's message;
executor success with non-zero exit to a failed outcome with the captured
output and the generic non-zero message over the space-joined argument
vector; executor success with zero exit to a successful outcome with the
captured output and no error. -/
theorem c3_run_stage_mapping (exec : Exec) (label : String) (args : List String) :
    (∀ e, run_captured exec args = Except.error e →
      run_stage exec label args = ⟨label, false, "", "", some e⟩) ∧
    (∀ out err, run_captured exec args = Except.ok (false, out, err) →
      run_stage exec label args =
        ⟨label, false, out, err, some ("command exited non-zero: " ++ joinSpace args)⟩) ∧
    (∀ out err, run_captured exec args = Except.ok (true, out, err) →
      run_stage exec label args = ⟨label, true, out, err, none⟩) := by
  refine ⟨fun e he => ?_, fun out err he => ?_, fun out err he => ?_⟩ <;>
    simp [run_stage, he]

/-- Witness for C3 at a concrete spawn failure. -/
theorem c3_witness :
    run_captured execSpawnFail ["p"] = Except.error "failed to spawn: p" ∧
    run_stage execSpawnFail "X" ["p"] = ⟨"X", false, "", "", some "failed to spawn: p"⟩ :=
  ⟨rfl, (c3_run_stage_mapping execSpawnFail "X" ["p"]).1 "failed to spawn: p" rfl⟩

/-- C4: every outcome built by `run_stage`, `skipped_stage` or `mount_share`
satisfies `error.isSome → success = false` and `success = true → error =
none`. -/
theorem c4_outcome_invariant (exec : Exec) (label : String) (args : List String)
    (env : MountEnv) (mcfg : MountConfig) :
    (((run_stage exec label args).error.isSome = true →
        (run_stage exec label args).success = false) ∧
      ((run_stage exec label args).success = true →
        (run_stage exec label args).error = none)) ∧
    (((skipped_stage label).error.isSome = true →
        (skipped_stage label).success = false) ∧
      ((skipped_stage label).success = true → (skipped_stage label).error = none)) ∧
    (((mount_share env mcfg).error.isSome = true →
        (mount_share env mcfg).success = false) ∧
      ((mount_share env mcfg).success = true → (mount_share env mcfg).error = none)) := by
  refine ⟨?_, ?_, ?_⟩
  · unfold run_stage
    split <;> simp
  · simp [skipped_stage]
  · unfold mount_share
    split <;> simp

/-- Witness for C4: a concrete outcome with an error message is failed. -/
theorem c4_witness :
    (run_stage execSpawnFail "Y" ["p"]).error.isSome = true ∧
    (run_stage execSpawnFail "Y" ["p"]).success = false :=
  ⟨by decide,
   (c4_outcome_invariant execSpawnFail "Y" ["p"] envOk mcfgSample).1.1 (by decide)⟩

/-- C6: the executor fails fast on an empty vector without consulting the
spawn oracle; a spawn failure is an `Except.error` with the descriptive
`failed to spawn` message (distinct by construction from the non-error,
non-zero-exit result); a non-zero exit is returned as `Except.ok` with
`exit_success = false` and the captured output. -/
theorem c6_run_captured_contract (exec : Exec) :
    run_captured exec [] = Except.error "cannot run an empty command" ∧
    (∀ prog rest, exec prog rest = none →
      run_captured exec (prog :: rest) =
        Except.error ("failed to spawn: " ++ joinSpace (prog :: rest))) ∧
    (∀ prog rest out err, exec prog rest = some (false, out, err) →
      run_captured exec (prog :: rest) = Except.ok (false, out, err)) := by
  refine ⟨rfl, fun prog rest h => ?_, fun prog rest out err h => ?_⟩ <;>
    simp [run_captured, h]

/-- Witness for C6 at a concrete spawn failure. -/
theorem c6_witness :
    execSpawnFail "p" ["q"] = none ∧
    run_captured execSpawnFail ["p", "q"] =
      Except.error ("failed to spawn: " ++ joinSpace ["p", "q"]) :=
  ⟨rfl, (c6_run_captured_contract execSpawnFail).2.1 "p" ["q"] rfl⟩

/-- C7: enabling elevation prepends exactly the one token `"doas"` to the
privilege prefix, the mkdir vector and the backup-engine base vector;
disabling it prepends nothing and the prefix is empty. -/
theorem c7_elevation_pfx (cli : Cli) (cfg : Config) :
    pfx (withSudo cli false) = [] ∧
    pfx (withSudo cli true) = ["doas"] ∧
    (pfx (withSudo cli true)).length = (pfx (withSudo cli false)).length + 1 ∧
    build_mkdir_args (withSudo cli true) cfg =
      "doas" :: build_mkdir_args (withSudo cli false) cfg ∧
    rustic_base (withSudo cli true) cfg =
      "doas" :: rustic_base (withSudo cli false) cfg := by
  exact ⟨rfl, rfl, rfl, rfl, rfl⟩

/-- Witness for C7 at the concrete default flags. -/
theorem c7_witness : pfx (withSudo cliOff true) = ["doas"] :=
  (c7_elevation_pfx cliOff cfgSample).2.1

/-- C5, counterexample to the claim as stated: with the non-empty configured
source list `["."]` the built vector does contain the literal element `"."`,
so "with a non-empty source list the vector never contains `"."`" is false
on the code. -/
theorem c5_counterexample :
    cfgDotSource.backup.sources ≠ [] ∧ "." ∈ build_backup_args cliOff cfgDotSource := by
  decide

/-- C5 as amended: the built vector is exactly the base and fixed flags,
then one `--glob=<g>` token per configured glob in configuration order,
then the source paths — `["."]` when the configured source list is empty
and exactly the configured sources (in order) otherwise.  The builder never
introduces a `"."` of its own for a non-empty source list; `"."` can then
only appear if it is among the configured values. -/
theorem c5_backup_args_structure (cli : Cli) (cfg : Config) :
    build_backup_args cli cfg =
        rustic_base cli cfg
          ++ ["backup", "--set-compression", toString cfg.backup.compression,
              "--exclude-if-present", cfg.backup.exclude_if_present]
          ++ cfg.backup.globs.map (fun glob => "--glob=" ++ glob)
          ++ (if cfg.backup.sources = [] then ["."] else cfg.backup.sources) ∧
      (cfg.backup.sources = [] → "." ∈ build_backup_args cli cfg) ∧
      (cfg.backup.sources ≠ [] →
        ∃ pre, build_backup_args cli cfg = pre ++ cfg.backup.sources) := by
  refine ⟨?_, fun hemp => ?_, fun hne => ?_⟩
  · cases h : cfg.backup.sources <;> simp [build_backup_args, h]
  · simp [build_backup_args, hemp]
  · refine ⟨rustic_base cli cfg
        ++ ["backup", "--set-compression", toString cfg.backup.compression,
            "--exclude-if-present", cfg.backup.exclude_if_present]
        ++ cfg.backup.globs.map (fun glob => "--glob=" ++ glob), ?_⟩
    have hie : cfg.backup.sources.isEmpty = false := by
      cases h : cfg.backup.sources with
      | nil => exact absurd h hne
      | cons a l => simp [h]
    simp [build_backup_args, hie]

/-- Witness for C5 at a concrete non-empty source list: the vector ends in
exactly the configured sources. -/
theorem c5_witness :
    cfgSample.backup.sources ≠ [] ∧
    ∃ pre, build_backup_args cliOff cfgSample = pre ++ cfgSample.backup.sources :=
  ⟨by decide, (c5_backup_args_structure cliOff cfgSample).2.2 (by decide)⟩

/-! ## Stage labels -/

theorem run_stage_label (exec : Exec) (label : String) (args : List String) :
    (run_stage exec label args).label = label := by
  unfold run_stage
  split <;> rfl

theorem mount_share_label (env : MountEnv) (mcfg : MountConfig) :
    (mount_share env mcfg).label = "Mount" := by
  unfold mount_share
  split <;> rfl

theorem mountOutcome_label (w : World) (cli : Cli) (cfg : Config) :
    (mountOutcome w cli cfg).label = "Mount" := by
  unfold mountOutcome
  split
  · exact mount_share_label _ _
  · rfl

theorem eok_abortStep_pred {P : StageOutcome → Prop} {os : List StageOutcome}
    {o : StageOutcome} (h : ∀ o2 ∈ os, P o2) (ho : P o) :
    EOk (fun l => ∀ o2 ∈ l, P o2) (fun r => ∀ o2 ∈ r.outcomes, P o2)
      (abortStep os o) := by
  unfold abortStep
  split
  · constructor
    · intro os2 h2
      exact Except.noConfusion h2
    · intro r h2
      injection h2 with h3
      subst h3
      exact mem_append_one h ho
  · exact eok_pure (mem_append_one h ho)

/-- With `--no-prune` the forget/compact block is a no-op. -/
theorem pruneSteps_no_prune (w : World) (cli : Cli) (cfg : Config)
    (hnp : cli.no_prune = true) (os : List StageOutcome) :
    pruneSteps w cli cfg os = Except.ok os := by
  simp [pruneSteps, hnp]

/-- Under `--no-prune`, no state of the pipeline ever holds an outcome
labelled `"Forget"` or `"Compact"`. -/
theorem notPrune_runE (w : World) (cli : Cli) (cfg : Config)
    (hnp : cli.no_prune = true) :
    EOk (fun l => ∀ o ∈ l, o.label ≠ "Forget" ∧ o.label ≠ "Compact")
      (fun r => ∀ o ∈ r.outcomes, o.label ≠ "Forget" ∧ o.label ≠ "Compact")
      (runE w cli cfg) := by
  have hnil : ∀ o2 ∈ ([] : List StageOutcome),
      o2.label ≠ "Forget" ∧ o2.label ≠ "Compact" :=
    fun o2 h2 => absurd h2 (List.not_mem_nil o2)
  unfold runE
  refine eok_bind (eok_abortStep_pred hnil ?_) (fun os1 h1 => ?_)
  · constructor <;> simp [mountOutcome_label]
  refine eok_bind ?_ (fun os2 h2 => ?_)
  · unfold initSteps
    split
    · refine eok_bind (eok_abortStep_pred h1 ?_) (fun osa ha => eok_abortStep_pred ha ?_) <;>
        constructor <;> simp [run_stage_label]
    · exact eok_pure h1
  refine eok_bind ?_ (fun os3 h3 => ?_)
  · unfold checkStep
    split
    · refine eok_abortStep_pred h2 ?_
      constructor <;> simp [run_stage_label]
    · exact eok_pure h2
  refine eok_bind (eok_abortStep_pred h3 ?_) (fun os4 h4 => ?_)
  · constructor <;> simp [run_stage_label]
  rw [pruneSteps_no_prune w cli cfg hnp]
  exact eok_pure h4

/-- C8: a skipped stage's outcome is a success with empty stdout, stderr and
error; and with pruning disabled no recorded outcome belongs to the Forget
or Compact stages — they are entirely absent from the outcome list. -/
theorem c8_skip_and_prune_absent :
    (∀ label, skipped_stage label = ⟨label, true, "", "", none⟩) ∧
    ∀ (w : World) (cli : Cli) (cfg : Config), cli.no_prune = true →
      ∀ o ∈ (run w cli cfg).outcomes, o.label ≠ "Forget" ∧ o.label ≠ "Compact" := by
  refine ⟨fun label => rfl, fun w cli cfg hnp => ?_⟩
  have h := notPrune_runE w cli cfg hnp
  cases hx : runE w cli cfg with
  | ok os =>
    simp only [run, hx]
    exact h.1 os hx
  | error r =>
    simp only [run, hx]
    exact h.2 r hx

/-- Witness for C8 at a concrete `--no-prune` run. -/
theorem c8_witness :
    (skipped_stage "Mount").label ≠ "Forget" ∧
    (skipped_stage "Mount").label ≠ "Compact" :=
  c8_skip_and_prune_absent.2 worldAllOk cliSkipAll cfgSample rfl
    (skipped_stage "Mount") (by decide)

/-- Every external command `try_mount` spawns is invoked through `doas`. -/
theorem try_mount_trace_doas (env : MountEnv) (mcfg : MountConfig) :
    ∀ argv ∈ (try_mount env mcfg).2, argv.head? = some "doas" := by
  cases hs : mcfg.share with
  | none => simp [try_mount, hs]
  | some share =>
    cases him : is_mounted env share with
    | error e => simp [try_mount, hs, him]
    | ok b =>
      cases b with
      | true => simp [try_mount, hs, him]
      | false =>
        cases hmk : env.mkdirOk with
        | false => simp [try_mount, hs, him, hmk]
        | true =>
          cases hns : nfs_source share with
          | none => simp [try_mount, hs, him, hmk, hns]
          | some source =>
            cases hme : env.mountExit with
            | none => simp [try_mount, hs, him, hmk, hns, hme]
            | some mb => cases mb <;> simp [try_mount, hs, him, hmk, hns, hme]

/-- With a configured share, `try_mount` always spawns at least the
`doas mount` probe. -/
theorem try_mount_trace_ne_nil (env : MountEnv) (mcfg : MountConfig)
    (h : mcfg.share.isSome = true) : (try_mount env mcfg).2 ≠ [] := by
  cases hs : mcfg.share with
  | none => rw [hs] at h; exact Bool.noConfusion h
  | some share =>
    cases him : is_mounted env share with
    | error e => simp [try_mount, hs, him]
    | ok b =>
      cases b with
      | true => simp [try_mount, hs, him]
      | false =>
        cases hmk : env.mkdirOk with
        | false => simp [try_mount, hs, him, hmk]
        | true =>
          cases hns : nfs_source share with
          | none => simp [try_mount, hs, him, hmk, hns]
          | some source =>
            cases hme : env.mountExit with
            | none => simp [try_mount, hs, him, hmk, hns, hme]
            | some mb => cases mb <;> simp [try_mount, hs, him, hmk, hns, hme]

/-- C9: when a mount target is configured the mount stage spawns at least
one external command, every command it spawns (the mounted-shares probe and
the NFS mount itself) is invoked through the hardcoded `"doas"`, and the
elevate-privileges flag has no effect on the mount stage at all. -/
theorem c9_mount_uses_doas (env : MountEnv) (mcfg : MountConfig)
    (h : mcfg.share.isSome = true) :
    (try_mount env mcfg).2 ≠ [] ∧
    (∀ argv ∈ (try_mount env mcfg).2, argv.head? = some "doas") ∧
    ∀ (w : World) (cli : Cli) (cfg : Config) (b : Bool),
      mountOutcome w (withSudo cli b) cfg = mountOutcome w cli cfg :=
  ⟨try_mount_trace_ne_nil env mcfg h, try_mount_trace_doas env mcfg,
   fun _w _cli _cfg _b => rfl⟩

/-- Witness for C9 at a concrete environment where both mount commands are
spawned. -/
theorem c9_witness :
    mcfgSample.share.isSome = true ∧
    (["doas", "mount"] : List String).head? = some "doas" :=
  ⟨rfl, (c9_mount_uses_doas envOk mcfgSample rfl).2.1 ["doas", "mount"] (by decide)⟩

/-! ## C10 helpers -/

theorem failed_spawn_ne (s : String) :
    ("failed to spawn: " ++ s) ≠ "cannot run an empty command" := by
  intro h
  have h2 : ("failed to spawn: " ++ s).data = ("cannot run an empty command").data :=
    congrArg String.data h
  have h3 : ("failed to spawn: " ++ s).data = "failed to spawn: ".data ++ s.data := rfl
  rw [h3] at h2
  have h4 : "failed to spawn: ".data =
      ['f', 'a', 'i', 'l', 'e', 'd', ' ', 't', 'o', ' ',
       's', 'p', 'a', 'w', 'n', ':', ' '] := rfl
  have h5 : "cannot run an empty command".data =
      ['c', 'a', 'n', 'n', 'o', 't', ' ', 'r', 'u', 'n', ' ', 'a', 'n', ' ',
       'e', 'm', 'p', 't', 'y', ' ', 'c', 'o', 'm', 'm', 'a', 'n', 'd'] := rfl
  rw [h4, h5] at h2
  injection h2 with h6 h7
  exact absurd h6 (by decide)

theorem exists_cons_of_head {α : Type} {l : List α} {a : α} (h : l.head? = some a) :
    ∃ t, l = a :: t := by
  cases l with
  | nil => exact Option.noConfusion h
  | cons x t =>
    injection h with h2
    exact ⟨t, by rw [h2]⟩

theorem run_captured_ne_empty_error (exec : Exec) (prog : String) (rest : List String) :
    run_captured exec (prog :: rest) ≠ Except.error "cannot run an empty command" := by
  unfold run_captured
  cases h : exec prog rest with
  | none =>
    simp only [h]
    intro h2
    injection h2 with h3
    exact failed_spawn_ne _ h3
  | some r =>
    simp only [h]
    intro h2
    exact Except.noConfusion h2

theorem builders_head (cli : Cli) (cfg : Config) :
    (build_mkdir_args cli cfg).head? = some (if cli.sudo_flag then "doas" else "mkdir") ∧
    (build_init_args cli cfg).head? = some (if cli.sudo_flag then "doas" else "rustic") ∧
    (build_check_args cli cfg).head? = some (if cli.sudo_flag then "doas" else "rustic") ∧
    (build_backup_args cli cfg).head? = some (if cli.sudo_flag then "doas" else "rustic") ∧
    (build_forget_args cli cfg).head? = some (if cli.sudo_flag then "doas" else "rustic") ∧
    (build_compact_args cli cfg).head? = some (if cli.sudo_flag then "doas" else "rustic") := by
  cases hs : cli.sudo_flag <;>
    simp [build_mkdir_args, build_init_args, build_check_args, build_backup_args,
      build_forget_args, build_compact_args, rustic_base, pfx, hs]

/-- C10: every argument-builder output starts with a program name (the
elevation program, `mkdir`, or `rustic`), so the executor's empty-command
error branch is unreachable for any vector the pipeline passes to it. -/
theorem c10_builders_nonempty (cli : Cli) (cfg : Config) :
    (build_mkdir_args cli cfg).head? = some (if cli.sudo_flag then "doas" else "mkdir") ∧
    (build_init_args cli cfg).head? = some (if cli.sudo_flag then "doas" else "rustic") ∧
    (build_check_args cli cfg).head? = some (if cli.sudo_flag then "doas" else "rustic") ∧
    (build_backup_args cli cfg).head? = some (if cli.sudo_flag then "doas" else "rustic") ∧
    (build_forget_args cli cfg).head? = some (if cli.sudo_flag then "doas" else "rustic") ∧
    (build_compact_args cli cfg).head? = some (if cli.sudo_flag then "doas" else "rustic") ∧
    ∀ (exec : Exec) (args : List String),
      args ∈ [build_mkdir_args cli cfg, build_init_args cli cfg,
              build_check_args cli cfg, build_backup_args cli cfg,
              build_forget_args cli cfg, build_compact_args cli cfg] →
      run_captured exec args ≠ Except.error "cannot run an empty command" := by
  have hb := builders_head cli cfg
  refine ⟨hb.1, hb.2.1, hb.2.2.1, hb.2.2.2.1, hb.2.2.2.2.1, hb.2.2.2.2.2, ?_⟩
  intro exec args hmem
  simp only [List.mem_cons, List.not_mem_nil, or_false] at hmem
  rcases hmem with rfl | rfl | rfl | rfl | rfl | rfl
  · obtain ⟨t, ht⟩ := exists_cons_of_head hb.1
    rw [ht]
    exact run_captured_ne_empty_error _ _ _
  · obtain ⟨t, ht⟩ := exists_cons_of_head hb.2.1
    rw [ht]
    exact run_captured_ne_empty_error _ _ _
  · obtain ⟨t, ht⟩ := exists_cons_of_head hb.2.2.1
    rw [ht]
    exact run_captured_ne_empty_error _ _ _
  · obtain ⟨t, ht⟩ := exists_cons_of_head hb.2.2.2.1
    rw [ht]
    exact run_captured_ne_empty_error _ _ _
  · obtain ⟨t, ht⟩ := exists_cons_of_head hb.2.2.2.2.1
    rw [ht]
    exact run_captured_ne_empty_error _ _ _
  · obtain ⟨t, ht⟩ := exists_cons_of_head hb.2.2.2.2.2
    rw [ht]
    exact run_captured_ne_empty_error _ _ _

/-- Witness for C10 at the concrete mkdir vector. -/
theorem c10_witness :
    run_captured execAllOk (build_mkdir_args cliOff cfgSample) ≠
      Except.error "cannot run an empty command" :=
  (c10_builders_nonempty cliOff cfgSample).2.2.2.2.2.2 execAllOk
    (build_mkdir_args cliOff cfgSample) (by decide)

end Backups
